import Mathlib

/-!
Verification of the conversion-engine specification of the mark-it-down
repository.  The repository's own code (`demo.py`) drives an engine whose
components (content streams, format sniffer, converter registry, dispatch
engine, normalized document model and its serializer) are specified in
`spec.md`; the engine itself ships as the external `markitdown` package and
is not part of the repository's sources, so every engine component below is
modelled from the specification's own words and marked as such.
-/

namespace MarkItDown

/-- Modelled from the spec: declared hints of a Source — optional file
extension and optional MIME type (§3 Source, §4.1 `declared_hints`). -/
structure Hints where
  ext : Option String
  mime : Option String
deriving Repr, DecidableEq

/-- Modelled from the spec: a Source identifies an origin (optional path),
carries the content bytes (the re-readable Content Stream is modelled as the
full in-memory buffer, §3/§4.1), declared hints, and whether the origin can
be reached (`open()` fails with `SourceUnavailable` otherwise, §4.1). -/
structure Source where
  path : Option String
  bytes : List Char
  hints : Hints
  available : Bool

/-- Modelled from the spec: the Block nodes of a Normalized Document
(§3 Normalized Document): Heading{level, text}, Paragraph{inline-runs},
List{ordered?, items: nested Block sequences}, Table{rows of cells},
CodeBlock{language-hint, text}, ImageReference{alt-text, source-locator},
Link{text, target}. -/
inductive Block where
  | heading (level : Nat) (text : String)
  | paragraph (text : String)
  | list (ordered : Bool) (items : List (List Block))
  | table (rows : List (List String))
  | codeBlock (lang : Option String) (text : String)
  | imageRef (alt : String) (src : String)
  | link (text : String) (target : String)
deriving Repr

/-- Modelled from the spec: a Normalized Document — ordered Block sequence
plus top-level metadata (title, source-format) and non-fatal warnings
collected during conversion (§3, §4.6). -/
structure NormalizedDocument where
  title : Option String
  sourceFormat : String
  warnings : List String
  blocks : List Block

/-- Modelled from the spec: the per-converter error taxonomy (§7):
`NotApplicable`, `MalformedContent`, `UnsupportedFeature`, `TimedOut` —
all recovered locally by dispatch. -/
inductive ConverterError where
  | notApplicable
  | malformedContent (msg : String)
  | unsupportedFeature (msg : String)
  | timedOut
deriving Repr, DecidableEq

/-- Modelled from the spec: a converter (§4.5) — an identity plus
`convert(stream) -> Normalized Document` which may fail with a
per-converter error; the cheap applicability check is performed inside
`run` (§4.4 step 3). -/
structure Converter where
  id : String
  run : List Char → Except ConverterError NormalizedDocument

/-- Modelled from the spec: one entry of the attempt log — converter
identity plus its decline/error reason (§4.4 step 6, §3 Conversion
Failure). -/
structure Attempt where
  converter : String
  reason : ConverterError
deriving Repr, DecidableEq

/-- Modelled from the spec: the hard failures surfaced to the caller (§7):
`SourceUnavailable` and `NoConverterSucceeded` (carrying the ordered
attempt log). -/
inductive DispatchError where
  | sourceUnavailable
  | noConverterSucceeded (attempts : List Attempt)
deriving Repr, DecidableEq

/-- Modelled from the spec: the Conversion Result (§3, §4.6) — normalized
markup text plus metadata (detected format, optional title, warnings).  The
text field carries the name the repository's `demo.py` reads
(`result.text_content`). -/
structure ConversionResult where
  text_content : String
  detectedFormat : String
  title : Option String
  warnings : List String
deriving Repr, DecidableEq

/-! ### Serialization of the Normalized Document (§4.6) -/

/-- Modelled from the spec: heading level → leading marker count (§4.6). -/
def headingMarker (level : Nat) : String :=
  String.mk (List.replicate level '#')

/-- Join rendered item lines with single newlines. -/
def joinLines : List String → String
  | [] => ""
  | [x] => x
  | x :: xs => x ++ "\n" ++ joinLines xs

/-- Prepend the list marker (`- ` or `n. `) to each rendered item. -/
def addMarkers (ordered : Bool) (n : Nat) : List String → List String
  | [] => []
  | x :: xs =>
    ((if ordered then toString n ++ ". " else "- ") ++ x) ::
      addMarkers ordered (n + 1) xs

/-- Pad a row of cells to the given width (ragged rows are padded, never
truncated, §3). -/
def padRow (width : Nat) (row : List String) : List String :=
  row ++ List.replicate (width - row.length) ""

/-- Render one table row as pipe-delimited cells (§4.6). -/
def renderRow (width : Nat) (row : List String) : String :=
  "| " ++ joinLines ((padRow width row).map (fun c => c ++ " |"))

/-- Modelled from the spec: table rows → pipe-delimited cells with a
separator row after the header (§4.6). -/
def renderTable (rows : List (List String)) : String :=
  let width := rows.foldr (fun r acc => max r.length acc) 0
  match rows with
  | [] => ""
  | r :: rest =>
    joinLines (renderRow width r ::
      renderRow width (List.replicate width "---") ::
      rest.map (renderRow width))

mutual

/-- Modelled from the spec: the fixed, documented rendering of each Block
variant into flat markup text (§4.6).  The `Option` result records whether
a variant reached a defined rendering; the specification's totality claim
is that the result is always `some`. -/
def renderBlock : Block → Option String
  | .heading level text => some (headingMarker level ++ " " ++ text)
  | .paragraph text => some text
  | .list ordered items =>
    match renderItems items with
    | some rs => some (joinLines (addMarkers ordered 1 rs))
    | none => none
  | .table rows => some (renderTable rows)
  | .codeBlock lang text =>
    some ("```" ++ lang.getD "" ++ "\n" ++ text ++ "\n```")
  | .imageRef alt src => some ("![" ++ alt ++ "](" ++ src ++ ")")
  | .link text target => some ("[" ++ text ++ "](" ++ target ++ ")")

/-- Render every item of a list block. -/
def renderItems : List (List Block) → Option (List String)
  | [] => some []
  | item :: rest =>
    match renderItemBlocks item, renderItems rest with
    | some s, some ss => some (s :: ss)
    | _, _ => none

/-- Render the nested Block sequence of a single list item. -/
def renderItemBlocks : List Block → Option String
  | [] => some ""
  | b :: rest =>
    match renderBlock b, renderItemBlocks rest with
    | some s, some ss => some (s ++ ss)
    | _, _ => none

end

/-- Render every top-level block of a document. -/
def renderAll : List Block → Option (List String)
  | [] => some []
  | b :: rest =>
    match renderBlock b, renderAll rest with
    | some s, some ss => some (s :: ss)
    | _, _ => none

/-- Join the tail blocks, each preceded by a blank-line separator. -/
def moreBlocks : List String → String
  | [] => ""
  | x :: xs => "\n\n" ++ x ++ moreBlocks xs

/-- Join rendered top-level blocks with blank-line separators. -/
def joinBlocks : List String → String
  | [] => ""
  | x :: xs => x ++ moreBlocks xs

/-- Modelled from the spec: serialize a Normalized Document into the flat
markup text (§4.6), rendering each block and joining with blank lines. -/
def serializeDoc (d : NormalizedDocument) : Option String :=
  (renderAll d.blocks).map joinBlocks

/-! ### Converter Registry (§4.3) -/

/-- Modelled from the spec: a Converter Registration — converter instance,
the format identifiers it accepts (`"*"` is the generic wildcard pattern),
its explicit priority integer, and its registration index (§3). -/
structure Registration where
  converter : Converter
  formats : List String
  priority : Int
  index : Nat

/-- Membership of a format identifier in a registration's format list. -/
def hasFmt : List String → String → Bool
  | [], _ => false
  | f :: rest, fmt => if f = fmt then true else hasFmt rest fmt

/-- A registration matches a format if it lists it or lists the generic
wildcard pattern (§4.3). -/
def matchesFmt (reg : Registration) (fmt : String) : Bool :=
  hasFmt reg.formats fmt || hasFmt reg.formats "*"

/-- Dispatch order between registrations: descending priority, ties broken
by registration order (§3, §4.3). -/
def regBefore (a b : Registration) : Prop :=
  b.priority < a.priority ∨ (a.priority = b.priority ∧ a.index ≤ b.index)

instance : DecidableRel regBefore := fun a b => by
  unfold regBefore; infer_instance

instance : IsTotal Registration regBefore := by
  constructor
  intro a b
  unfold regBefore
  omega

instance : IsTrans Registration regBefore := by
  constructor
  intro a b c hab hbc
  unfold regBefore at *
  omega

/-- Modelled from the spec: the Converter Registry — an ordered collection
of registrations; `nextIndex` numbers registrations in arrival order so
ties are broken deterministically (§4.3). -/
structure Registry where
  regs : List Registration
  nextIndex : Nat

/-- The empty registry. -/
def Registry.empty : Registry := ⟨[], 0⟩

/-- Modelled from the spec: `register(converter, formats, priority)`
(§4.3); later registrations receive later indices. -/
def Registry.register (r : Registry) (c : Converter) (formats : List String)
    (priority : Int) : Registry :=
  ⟨r.regs ++ [⟨c, formats, priority, r.nextIndex⟩], r.nextIndex + 1⟩

/-- Modelled from the spec: `unregister(converter)` removes a converter's
registrations by identity (§4.3). -/
def Registry.unregister (r : Registry) (c : Converter) : Registry :=
  ⟨r.regs.filter (fun reg => reg.converter.id ≠ c.id), r.nextIndex⟩

/-- Modelled from the spec: `candidates_for(format_identifier)` — the
matching registrations (wildcard registrations included as universal
fallbacks) sorted by descending priority, ties by registration order
(§4.3). -/
def Registry.candidatesFor (r : Registry) (fmt : String) : List Registration :=
  List.insertionSort regBefore (r.regs.filter (fun reg => matchesFmt reg fmt))

/-! ### Format Sniffer (§4.2) -/

/-- Byte-level check that `pat` occurs at the head of `l`. -/
def isPre : List Char → List Char → Bool
  | [], _ => true
  | _ :: _, [] => false
  | a :: as, b :: bs => if a = b then isPre as bs else false

/-- The generic final fallback candidate (§4.2 step 4). -/
def unknownFormat : String := "unknown/binary"

/-- Modelled from the spec: map an asserted MIME type to a format
identifier. -/
def mimeFormat (m : String) : String :=
  if m = "text/html" then "html"
  else if m = "text/plain" then "text"
  else m

/-- Modelled from the spec: map a declared file extension to a format
identifier. -/
def extFormat (e : String) : String :=
  if e = "html" then "html"
  else if e = "htm" then "html"
  else if e = "txt" then "text"
  else e

/-- Modelled from the spec: known magic-byte signatures, listed by
signature specificity — longer/more specific signatures rank above generic
ones (§4.2 step 2). -/
def signatures : List (String × String) :=
  [("<!DOCTYPE html", "html"), ("<html", "html"), ("<?xml", "xml"),
   ("%PDF-", "pdf"), ("PK\x03\x04", "zip")]

/-- Candidates from an explicit, unambiguous caller hint (§4.2 step 1). -/
def mimeCandidates (hints : Hints) : List String :=
  match hints.mime with
  | some m => [mimeFormat m]
  | none => []

/-- Candidates from magic-byte signatures found at the head of the bounded
byte prefix (§4.2 step 2). -/
def magicCandidates (bytes : List Char) : List String :=
  signatures.filterMap
    (fun sf => if isPre sf.1.data bytes then some sf.2 else none)

/-- Candidates guessed from the declared extension, ranked last (§4.2
step 3). -/
def extCandidates (hints : Hints) : List String :=
  match hints.ext with
  | some e => [extFormat e]
  | none => []

/-- Modelled from the spec: `sniff(stream, hints)` — explicit hint first,
then magic-byte matches by specificity, then extension guesses, and always
a final generic unknown/binary candidate (§4.2). -/
def sniff (bytes : List Char) (hints : Hints) : List String :=
  (mimeCandidates hints ++ magicCandidates bytes ++ extCandidates hints) ++
    [unknownFormat]

/-! ### Reference converters (§2 implementation budget, §4.5, §9) -/

/-- Signature check used by the HTML converter's cheap applicability test:
an HTML document prologue at the head of the stream. -/
def htmlSig (bytes : List Char) : Bool :=
  isPre "<!DOCTYPE html".data bytes || isPre "<html".data bytes

/-- Split the stream at the first occurrence of `pat`: the text before it
and the remainder after it. -/
def takeUntil (pat : List Char) : List Char → Option (List Char × List Char)
  | [] => none
  | c :: rest =>
    if isPre pat (c :: rest) then some ([], (c :: rest).drop pat.length)
    else
      match takeUntil pat rest with
      | some (txt, suf) => some (c :: txt, suf)
      | none => none

/-- Fuel-indexed scanner turning `<h1>…</h1>` elements into Heading blocks
and `<p>…</p>` elements into Paragraph blocks, in source order. -/
def scanBlocks : Nat → List Char → List Block
  | 0, _ => []
  | _ + 1, [] => []
  | fuel + 1, c :: rest =>
    if isPre "<h1>".data (c :: rest) then
      match takeUntil ("</h1>".data) ((c :: rest).drop 4) with
      | some (txt, suf) => .heading 1 (String.mk txt) :: scanBlocks fuel suf
      | none => scanBlocks fuel rest
    else if isPre "<p>".data (c :: rest) then
      match takeUntil ("</p>".data) ((c :: rest).drop 3) with
      | some (txt, suf) => .paragraph (String.mk txt) :: scanBlocks fuel suf
      | none => scanBlocks fuel rest
    else scanBlocks fuel rest

/-- Modelled from the spec: the reference HTML converter's parse of the
byte stream into the Normalized Document's block sequence (the spec treats
converter internals as pluggable; headings and paragraphs are the elements
the specified scenario exercises). -/
def parseHtmlBlocks (bytes : List Char) : List Block :=
  scanBlocks (bytes.length + 1) bytes

/-- Modelled from the spec: the reference HTML converter (§2): declines
with `NotApplicable` when the prologue signature is absent (§4.4 step 3),
otherwise produces the Normalized Document of the parsed blocks. -/
def htmlDoc (bytes : List Char) : NormalizedDocument :=
  { title := none, sourceFormat := "html", warnings := [],
    blocks := parseHtmlBlocks bytes }

def htmlConverter : Converter where
  id := "html"
  run := fun bytes =>
    if htmlSig bytes then .ok (htmlDoc bytes) else .error .notApplicable

/-- Modelled from the spec: the reference plain-text converter (§2):
declines on an empty stream (nothing at all could be extracted, §4.5),
otherwise wraps the raw text in a single Paragraph block. -/
def plainTextConverter : Converter where
  id := "plain-text"
  run := fun bytes =>
    if bytes.isEmpty then .error .notApplicable
    else
      .ok { title := none, sourceFormat := "text", warnings := [],
            blocks := [Block.paragraph (String.mk bytes)] }

/-- Modelled from the spec: the generic binary fallback converter (§2, §9):
a universal low-priority best-effort extractor, so `NoConverterSucceeded`
occurs only for truly empty/unreadable sources — it declines on an empty
stream and otherwise emits the printable characters as a Paragraph. -/
def binaryFallbackConverter : Converter where
  id := "binary-fallback"
  run := fun bytes =>
    if bytes.isEmpty then .error (.malformedContent "empty source")
    else
      .ok { title := none, sourceFormat := unknownFormat,
            warnings := ["binary fallback: best-effort text extraction"],
            blocks := [Block.paragraph (String.mk (bytes.filter (·.isAlphanum)))] }

/-- Modelled from the spec: the default registry holding the reference
converters — HTML, plain text, and the generic wildcard fallback at low
priority (§2, §4.3, §9). -/
def defaultRegistry : Registry :=
  ((Registry.empty.register htmlConverter ["html"] 100).register
      plainTextConverter ["text"] 50).register
    binaryFallbackConverter ["*"] 0

/-! ### Dispatch Engine (§4.4) -/

/-- Build a Conversion Result from the winning converter's document (§4.6):
serialize the blocks and copy the metadata. -/
def mkResult (doc : NormalizedDocument) : ConversionResult :=
  { text_content := (serializeDoc doc).getD ""
    detectedFormat := doc.sourceFormat
    title := doc.title
    warnings := doc.warnings }

/-- Modelled from the spec: the dispatch loop over the combined candidate
chain (§4.4 steps 3–6): invoke each converter against the (re-readable)
bytes; the first success wins immediately, every decline/error is appended
to the ordered attempt log, and an exhausted chain yields the log. -/
def runChain (bytes : List Char) :
    List Converter → List Attempt → Except (List Attempt) ConversionResult
  | [], log => .error log
  | c :: rest, log =>
    match c.run bytes with
    | .ok doc => .ok (mkResult doc)
    | .error e => runChain bytes rest (log ++ [⟨c.id, e⟩])

/-- Modelled from the spec: the combined candidate chain (§4.4 steps 1–2):
sniffer candidate order as the outer loop, registry priority order as the
inner loop. -/
def chainOf (reg : Registry) (src : Source) : List Converter :=
  (sniff src.bytes src.hints).flatMap
    (fun f => (reg.candidatesFor f).map (·.converter))

/-- Modelled from the spec: `convert(source, hints) -> Conversion Result`
(§4.4): fail with `SourceUnavailable` when the source cannot be opened,
otherwise run the dispatch loop and surface `NoConverterSucceeded` with the
full attempt log when every candidate declines or errors. -/
def convert (reg : Registry) (src : Source) :
    Except DispatchError ConversionResult :=
  if src.available then
    match runChain src.bytes (chainOf reg src) [] with
    | .ok r => .ok r
    | .error log => .error (.noConverterSucceeded log)
  else .error .sourceUnavailable

/-! ### Public entry point (§6, `demo.py`) -/

/-- Derive the declared extension hint from a path (the text after the
last dot), as the entry point does for a bare path argument. -/
def extOf (p : String) : Option String :=
  if p.data.contains '.' then
    some (String.mk ((p.data.reverse.takeWhile (· ≠ '.')).reverse))
  else none

/-- Modelled from the spec: the single public conversion entry point (§6)
as `demo.py` uses it — it takes a bare file-path string and no hints
argument, derives the declared hints from the path, and returns a
Conversion Result or a typed error.  The file system is modelled as a
partial map from paths to contents; an unreadable path is
`SourceUnavailable`. -/
def convertPath (fs : String → Option (List Char)) (path : String) :
    Except DispatchError ConversionResult :=
  match fs path with
  | none => .error .sourceUnavailable
  | some bytes =>
    convert defaultRegistry
      { path := some path, bytes := bytes,
        hints := { ext := extOf path, mime := none }, available := true }

/-- The reason a converter's outcome contributes to the attempt log. -/
def reasonOf : Except ConverterError NormalizedDocument → ConverterError
  | .error e => e
  | .ok _ => .notApplicable

/-! ### Helper lemmas -/

theorem getLast?_append_single (l : List String) (a : String) :
    (l ++ [a]).getLast? = some a := by
  induction l with
  | nil => rfl
  | cons x xs ih =>
    rw [List.cons_append]
    cases h : xs ++ [a] with
    | nil => exact absurd h (by simp)
    | cons y ys => rw [List.getLast?_cons_cons, ← h, ih]

theorem isPre_exists {pat l : List Char} (h : isPre pat l = true) :
    ∃ t, l = pat ++ t := by
  induction pat generalizing l with
  | nil => exact ⟨l, rfl⟩
  | cons a as ih =>
    cases l with
    | nil => simp [isPre] at h
    | cons b bs =>
      by_cases hab : a = b
      · simp only [isPre, if_pos hab] at h
        obtain ⟨t, ht⟩ := ih h
        exact ⟨t, by simp [hab, ht]⟩
      · simp [isPre, if_neg hab] at h

theorem runChain_skip_failures (bytes : List Char) (pre : List Converter)
    (c : Converter) (rest : List Converter) (doc : NormalizedDocument)
    (log : List Attempt)
    (hpre : ∀ p ∈ pre, ∃ e, p.run bytes = .error e)
    (hc : c.run bytes = .ok doc) :
    runChain bytes (pre ++ c :: rest) log = .ok (mkResult doc) := by
  induction pre generalizing log with
  | nil => simp [runChain, hc]
  | cons p ps ih =>
    obtain ⟨e, he⟩ := hpre p (List.mem_cons_self p ps)
    rw [List.cons_append]
    simp only [runChain, he]
    exact ih _ fun q hq => hpre q (List.mem_cons_of_mem p hq)

theorem runChain_all_fail (bytes : List Char) (chain : List Converter)
    (log : List Attempt)
    (hfail : ∀ c ∈ chain, ∃ e, c.run bytes = .error e) :
    runChain bytes chain log =
      .error (log ++ chain.map (fun c => ⟨c.id, reasonOf (c.run bytes)⟩)) := by
  induction chain generalizing log with
  | nil => simp [runChain]
  | cons c cs ih =>
    obtain ⟨e, he⟩ := hfail c (List.mem_cons_self c cs)
    simp only [runChain, he, List.map_cons]
    rw [ih _ (fun q hq => hfail q (List.mem_cons_of_mem c hq))]
    simp [he, reasonOf]

theorem render_total (n : Nat) :
    (∀ b : Block, sizeOf b ≤ n → (renderBlock b).isSome = true) ∧
    (∀ items : List (List Block), sizeOf items ≤ n →
      (renderItems items).isSome = true) ∧
    (∀ item : List Block, sizeOf item ≤ n →
      (renderItemBlocks item).isSome = true) := by
  induction n using Nat.strong_induction_on with
  | _ n ih =>
    refine ⟨?_, ?_, ?_⟩
    · intro b hb
      cases b with
      | list ordered items =>
        have hlt : sizeOf items < n := by
          have := Block.list.sizeOf_spec ordered items
          omega
        obtain ⟨rs, hrs⟩ := Option.isSome_iff_exists.mp
          ((ih _ hlt).2.1 items le_rfl)
        simp [renderBlock, hrs]
      | heading level text => simp [renderBlock]
      | paragraph text => simp [renderBlock]
      | table rows => simp [renderBlock]
      | codeBlock lang text => simp [renderBlock]
      | imageRef alt src => simp [renderBlock]
      | link text target => simp [renderBlock]
    · intro items hitems
      cases items with
      | nil => simp [renderItems]
      | cons item rest =>
        have hspec := List.cons.sizeOf_spec item rest
        have h1 : sizeOf item < n := by omega
        have h2 : sizeOf rest < n := by omega
        obtain ⟨s, hs⟩ := Option.isSome_iff_exists.mp
          ((ih _ h1).2.2 item le_rfl)
        obtain ⟨ss, hss⟩ := Option.isSome_iff_exists.mp
          ((ih _ h2).2.1 rest le_rfl)
        simp [renderItems, hs, hss]
    · intro item hitem
      cases item with
      | nil => simp [renderItemBlocks]
      | cons b rest =>
        have hspec := List.cons.sizeOf_spec b rest
        have h1 : sizeOf b < n := by omega
        have h2 : sizeOf rest < n := by omega
        obtain ⟨s, hs⟩ := Option.isSome_iff_exists.mp
          ((ih _ h1).1 b le_rfl)
        obtain ⟨ss, hss⟩ := Option.isSome_iff_exists.mp
          ((ih _ h2).2.2 rest le_rfl)
        simp [renderItemBlocks, hs, hss]

theorem renderBlock_total (b : Block) : (renderBlock b).isSome = true :=
  (render_total (sizeOf b)).1 b le_rfl

theorem renderAll_total (blocks : List Block) :
    ∃ rs, renderAll blocks = some rs := by
  induction blocks with
  | nil => exact ⟨[], rfl⟩
  | cons b rest ih =>
    obtain ⟨s, hs⟩ := Option.isSome_iff_exists.mp (renderBlock_total b)
    obtain ⟨rs, hrs⟩ := ih
    exact ⟨s :: rs, by simp [renderAll, hs, hrs]⟩

/-- The Normalized Document the plain-text converter produces for a
non-empty stream. -/
def plainDoc (s : String) : NormalizedDocument :=
  { title := none, sourceFormat := "text", warnings := [],
    blocks := [Block.paragraph s] }

/-! ### Claim theorems -/

/-- C1: `candidates_for` returns converters sorted by descending priority
with ties broken by registration order; in particular registering A with
priority 10 and B with priority 20 for the same format yields B before A in
either registration order. -/
theorem c1_candidates_priority_order :
    (∀ (r : Registry) (fmt : String),
      (r.candidatesFor fmt).Pairwise regBefore) ∧
    (∀ A B : Converter,
      (((Registry.empty.register A ["fmt"] 10).register B
            ["fmt"] 20).candidatesFor "fmt").map
          (fun reg => reg.converter.id) = [B.id, A.id] ∧
      (((Registry.empty.register B ["fmt"] 20).register A
            ["fmt"] 10).candidatesFor "fmt").map
          (fun reg => reg.converter.id) = [B.id, A.id]) := by
  constructor
  · intro r fmt
    exact List.sorted_insertionSort regBefore _
  · intro A B
    constructor <;>
      simp [Registry.candidatesFor, Registry.register, Registry.empty,
        matchesFmt, hasFmt, regBefore]

/-- C2: the first converter in the candidate chain that returns a
Normalized Document wins and dispatch stops immediately — whatever follows
the first success in the chain, the result is exactly that converter's
serialized document, so no later converter's output is consulted. -/
theorem c2_first_success_wins (bytes : List Char) (pre : List Converter)
    (c : Converter) (rest : List Converter) (doc : NormalizedDocument)
    (log : List Attempt)
    (hpre : ∀ p ∈ pre, ∃ e, p.run bytes = .error e)
    (hc : c.run bytes = .ok doc) :
    runChain bytes (pre ++ c :: rest) log = .ok (mkResult doc) :=
  runChain_skip_failures bytes pre c rest doc log hpre hc

/-- Witness for C2: with the HTML converter declining on plain text, the
plain-text converter's success is the result, with the binary fallback
never consulted. -/
theorem c2_first_success_wins_witness :
    runChain "hello".data
        ([htmlConverter] ++ plainTextConverter :: [binaryFallbackConverter])
        [] =
      .ok (mkResult (plainDoc "hello")) :=
  c2_first_success_wins "hello".data [htmlConverter] plainTextConverter
    [binaryFallbackConverter] _ []
    (by intro p hp
        simp at hp
        subst hp
        exact ⟨.notApplicable, rfl⟩)
    rfl

/-- C3: every per-converter error (NotApplicable, MalformedContent,
UnsupportedFeature, TimedOut) is recovered locally — the chain simply
advances with the attempt logged — and the only hard failures `convert`
ever surfaces are SourceUnavailable and NoConverterSucceeded. -/
theorem c3_error_recovery_policy :
    (∀ (bytes : List Char) (c : Converter) (rest : List Converter)
        (log : List Attempt) (e : ConverterError),
      c.run bytes = .error e →
        runChain bytes (c :: rest) log =
          runChain bytes rest (log ++ [⟨c.id, e⟩])) ∧
    (∀ (reg : Registry) (src : Source) (err : DispatchError),
      convert reg src = .error err →
        err = .sourceUnavailable ∨
          ∃ log, err = .noConverterSucceeded log) := by
  constructor
  · intro bytes c rest log e he
    simp [runChain, he]
  · intro reg src err hconv
    unfold convert at hconv
    by_cases hav : src.available
    · simp only [hav, if_true] at hconv
      cases hrun : runChain src.bytes (chainOf reg src) [] with
      | ok r => rw [hrun] at hconv; exact absurd hconv (by simp)
      | error log =>
        rw [hrun] at hconv
        simp at hconv
        exact Or.inr ⟨log, hconv.symm⟩
    · simp only [hav, if_false] at hconv
      simp at hconv
      exact Or.inl hconv.symm

/-- Witness for C3: the HTML converter's decline on a plain-text stream is
recovered by advancing the chain, and an unavailable source surfaces
SourceUnavailable. -/
theorem c3_error_recovery_policy_witness :
    runChain "x".data [htmlConverter] [] =
      runChain "x".data [] [⟨"html", .notApplicable⟩] ∧
    (DispatchError.sourceUnavailable = .sourceUnavailable ∨
      ∃ log, DispatchError.sourceUnavailable = .noConverterSucceeded log) :=
  ⟨c3_error_recovery_policy.1 "x".data htmlConverter [] [] .notApplicable rfl,
   c3_error_recovery_policy.2 defaultRegistry
     ⟨some "missing.html", [], ⟨none, none⟩, false⟩ .sourceUnavailable rfl⟩

/-- C4: earlier candidates declining with NotApplicable never prevent a
later succeeding converter from being tried — dispatch still returns the
later converter's result. -/
theorem c4_decline_never_blocks (bytes : List Char) (pre : List Converter)
    (c : Converter) (rest : List Converter) (doc : NormalizedDocument)
    (log : List Attempt)
    (hpre : ∀ p ∈ pre, p.run bytes = .error .notApplicable)
    (hc : c.run bytes = .ok doc) :
    runChain bytes (pre ++ c :: rest) log = .ok (mkResult doc) :=
  runChain_skip_failures bytes pre c rest doc log
    (fun p hp => ⟨.notApplicable, hpre p hp⟩) hc

/-- Witness for C4: the HTML converter declines a non-HTML stream with
NotApplicable and the plain-text converter still succeeds. -/
theorem c4_decline_never_blocks_witness :
    runChain "plain words".data
        ([htmlConverter] ++ plainTextConverter :: []) [] =
      .ok (mkResult (plainDoc "plain words")) :=
  c4_decline_never_blocks "plain words".data [htmlConverter]
    plainTextConverter [] _ []
    (by intro p hp
        simp at hp
        subst hp
        rfl)
    rfl

/-- C5: when every candidate declines or errors, dispatch fails with
NoConverterSucceeded carrying the ordered log of every attempt (converter
identity plus its decline/error reason); an empty byte stream with no
hints exhausts all candidates and the failure carries at least one attempt
entry. -/
theorem c5_exhaustion_carries_log :
    (∀ (bytes : List Char) (chain : List Converter) (log : List Attempt),
      (∀ c ∈ chain, ∃ e, c.run bytes = .error e) →
        runChain bytes chain log =
          .error
            (log ++ chain.map (fun c => ⟨c.id, reasonOf (c.run bytes)⟩))) ∧
    (∀ (reg : Registry) (src : Source),
      src.available = true →
      (∀ c ∈ chainOf reg src, ∃ e, c.run src.bytes = .error e) →
        convert reg src =
          .error (.noConverterSucceeded
            ((chainOf reg src).map
              (fun c => ⟨c.id, reasonOf (c.run src.bytes)⟩)))) ∧
    (∃ log,
      convert defaultRegistry ⟨none, [], ⟨none, none⟩, true⟩ =
          .error (.noConverterSucceeded log) ∧ 1 ≤ log.length) := by
  refine ⟨fun bytes chain log h => runChain_all_fail bytes chain log h,
    ?_, ?_⟩
  · intro reg src hav hfail
    unfold convert
    rw [if_pos hav, runChain_all_fail src.bytes _ [] hfail]
    simp
  · exact ⟨[⟨"binary-fallback", .malformedContent "empty source"⟩],
      rfl, by simp⟩

/-- Witness for C5: the empty source with no hints — its single candidate,
the binary fallback, fails, and the logged attempt list is exactly the
chain's identities and reasons. -/
theorem c5_exhaustion_carries_log_witness :
    convert defaultRegistry ⟨none, [], ⟨none, none⟩, true⟩ =
      .error (.noConverterSucceeded
        ((chainOf defaultRegistry ⟨none, [], ⟨none, none⟩, true⟩).map
          (fun c => ⟨c.id, reasonOf (c.run [])⟩))) :=
  c5_exhaustion_carries_log.2.1 defaultRegistry ⟨none, [], ⟨none, none⟩, true⟩
    rfl
    (by intro c hc
        simp [chainOf, sniff, mimeCandidates, magicCandidates, extCandidates,
          signatures, isPre, Registry.candidatesFor, defaultRegistry,
          Registry.register, Registry.empty, matchesFmt, hasFmt] at hc
        subst hc
        exact ⟨.malformedContent "empty source", rfl⟩)

/-- C6: the Format Sniffer's candidate list always ends with the generic
unknown/binary candidate, so the list handed to dispatch is never
empty. -/
theorem c6_sniffer_appends_fallback :
    ∀ (bytes : List Char) (hints : Hints),
      (sniff bytes hints).getLast? = some unknownFormat ∧
        sniff bytes hints ≠ [] := by
  intro bytes hints
  constructor
  · exact getLast?_append_single _ _
  · simp [sniff]

/-- C7: serialization of the Normalized Document is total — every
constructible document (any combination of Heading, Paragraph, List,
Table, CodeBlock, ImageReference and Link blocks) serializes to text, no
Block variant reaching an unhandled branch. -/
theorem c7_serialization_total (d : NormalizedDocument) :
    (serializeDoc d).isSome = true := by
  obtain ⟨rs, hrs⟩ := renderAll_total d.blocks
  simp [serializeDoc, hrs]

/-- C8: conversion is deterministic — two sources with byte-identical
content, identical hints and identical availability convert to identical
Conversion Results (the declared path plays no role in dispatch). -/
theorem c8_deterministic (reg : Registry) (s1 s2 : Source)
    (hb : s1.bytes = s2.bytes) (hh : s1.hints = s2.hints)
    (ha : s1.available = s2.available) :
    convert reg s1 = convert reg s2 := by
  unfold convert chainOf
  rw [hb, hh, ha]

/-- Witness for C8: the same HTML bytes under two different paths yield
the same result. -/
theorem c8_deterministic_witness :
    convert defaultRegistry
        ⟨some "a.html", "<html><p>Hello</p></html>".data,
          ⟨some "html", none⟩, true⟩ =
      convert defaultRegistry
        ⟨some "b.html", "<html><p>Hello</p></html>".data,
          ⟨some "html", none⟩, true⟩ :=
  c8_deterministic defaultRegistry _ _ rfl rfl rfl

/-- C9: a well-formed HTML byte stream (HTML prologue at its head, no
overriding MIME hint) whose parse contains the single `h1` element Title
followed by the single `p` element Hello converts successfully, and the
result text begins with the level-1 heading marker, "Title", a block
separator, then the paragraph "Hello". -/
theorem c9_html_scenario (s : Source) (more : List Block)
    (hav : s.available = true) (hm : s.hints.mime = none)
    (hpre : isPre "<html".data s.bytes = true)
    (hparse : parseHtmlBlocks s.bytes =
      Block.heading 1 "Title" :: Block.paragraph "Hello" :: more) :
    ∃ r t, convert defaultRegistry s = .ok r ∧
      r.text_content = "# Title" ++ "\n\n" ++ "Hello" ++ t := by
  obtain ⟨p, bytes, ⟨ext0, mime0⟩, av⟩ := s
  simp only at hav hm hpre hparse
  subst hav hm
  obtain ⟨tail, htail⟩ := isPre_exists hpre
  subst htail
  obtain ⟨rs, hrs⟩ := renderAll_total more
  have hdoc : htmlConverter.run ("<html".data ++ tail) =
      .ok (htmlDoc ("<html".data ++ tail)) := rfl
  obtain ⟨cs, hcs⟩ : ∃ cs,
      chainOf defaultRegistry
        ⟨p, "<html".data ++ tail, ⟨ext0, none⟩, true⟩ =
        htmlConverter :: cs := ⟨_, rfl⟩
  have hconv : convert defaultRegistry
      ⟨p, "<html".data ++ tail, ⟨ext0, none⟩, true⟩ =
      .ok (mkResult (htmlDoc ("<html".data ++ tail))) := by
    unfold convert
    rw [hcs]
    simp only [runChain, hdoc, if_true]
  have htext : (serializeDoc (htmlDoc ("<html".data ++ tail))).getD "" =
      "# Title" ++ "\n\n" ++ "Hello" ++ moreBlocks rs := by
    unfold serializeDoc htmlDoc
    simp only [hparse]
    simp only [renderAll, renderBlock, hrs]
    rfl
  exact ⟨_, moreBlocks rs, hconv, htext⟩

/-- Witness for C9: the demo input `test_input.html` content — one
`h1` Title and one `p` Hello — converts to text beginning with
"# Title" then "Hello". -/
theorem c9_html_scenario_witness :
    ∃ r t, convert defaultRegistry
        ⟨some "test_input.html",
          "<html><h1>Title</h1><p>Hello</p></html>".data,
          ⟨some "html", none⟩, true⟩ = .ok r ∧
      r.text_content = "# Title" ++ "\n\n" ++ "Hello" ++ t :=
  c9_html_scenario _ [] rfl rfl rfl rfl

/-- The modelled file system of the repository's demo: only
`test_input.html` exists, holding one `h1` Title and one `p` Hello. -/
def demoFS : String → Option (List Char) := fun p =>
  if p = "test_input.html"
  then some "<html><h1>Title</h1><p>Hello</p></html>".data
  else none

/-- C10: the public conversion entry point accepts a bare file-path string
with no hints argument (`convertPath` takes only the path beyond the
modelled file system), and on success the returned result exposes the
normalized markup text in its `text_content` field — exactly how
`demo.py` obtains the converted text. -/
theorem c10_entry_point_path_only :
    ∃ r, convertPath demoFS "test_input.html" = .ok r ∧
      r.text_content = "# Title" ++ "\n\n" ++ "Hello" :=
  ⟨⟨"# Title\n\nHello", "html", none, []⟩, rfl, rfl⟩

end MarkItDown
